import Mathlib

/-!
Verification development for the NERIST One backend data layer
(`nerist_backend.js`).  The JavaScript source is shallowly embedded:

* IndexedDB object stores become Lean lists of records; `put` (insert-or-
  replace by primary key) becomes `putRecord`;
* `Date` values and ISO timestamp strings become `Nat` instants compared
  with `<` / `≤`, matching the source's `new Date(x) < now` comparisons;
* JavaScript numbers in the arithmetic of averages and grade points become
  exact rationals (`ℚ`); `toFixed(k)` and `Math.round` become
  `jsToFixed k` and `jsRound` (round-half-up on the exact value);
* functions that `throw` become functions into `Except DbError`;
* `btoa` (the base64 encoder used by `hashPassword`) is implemented over
  the byte list of the string; the `InvalidCharacterError` it throws on a
  code point above 255 is modelled by `Option` (and surfaces as the
  `invalidCharacter` error of the operations that hash).
-/
/-- Errors thrown by the backend, one constructor per distinct `throw new
Error(...)` message that the embedded operations can raise. -/
inductive DbError where
  /-- Message "Missing required fields" -/
  | validation
  /-- Message "Username already exists" -/
  | usernameConflict
  /-- Message "Email already registered" -/
  | emailConflict
  /-- Message "User not found" / "Menu not found" / "Opportunity not found" -/
  | notFound
  /-- Message "Account is deactivated" -/
  | deactivated
  /-- Message "Invalid password" -/
  | invalidPassword
  /-- Message "Current password is incorrect" -/
  | wrongCurrentPassword
  /-- Message "Not authenticated" -/
  | notAuthenticated
  /-- DOMException "InvalidCharacterError" thrown by `btoa` on a code point
  above 255 inside `hashPassword`, propagated by the caller's rethrow. -/
  | invalidCharacter
  /-- Message "This meal is not active" -/
  | inactiveMeal
  /-- Message "Already booked for this meal" -/
  | duplicateBooking
  /-- Message "Application deadline has passed" -/
  | deadlinePassed
  /-- Message "Already applied for this opportunity" -/
  | duplicateApplication
deriving DecidableEq, Repr

/-- JavaScript `Number.prototype.toFixed(digits)` on an exact rational:
round to `digits` decimal places, ties away from zero (ECMA-262 ToFixed
picks the larger candidate after splitting off the sign). -/
def jsToFixed (digits : ℕ) (q : ℚ) : ℚ :=
  let m : ℚ := (10 : ℚ) ^ digits
  if 0 ≤ q then (⌊q * m + 1/2⌋ : ℚ) / m else -((⌊(-q) * m + 1/2⌋ : ℚ) / m)

/-- JavaScript `Math.round`: round half up (towards `+∞`). -/
def jsRound (q : ℚ) : ℤ := ⌊q + 1/2⌋

/-! ## base64 and `hashPassword`

`hashPassword(password)` in the source is `btoa(password + 'nerist_salt')`.
`btoa` base64-encodes the Latin-1 bytes of its argument and throws
`InvalidCharacterError` on a code point above 255; the throw is modelled
by returning `none`. -/
/-- The base64 alphabet in encoding order. -/
def b64Chars : List Char :=
  ['A','B','C','D','E','F','G','H','I','J','K','L','M','N','O','P','Q','R',
   'S','T','U','V','W','X','Y','Z',
   'a','b','c','d','e','f','g','h','i','j','k','l','m','n','o','p','q','r',
   's','t','u','v','w','x','y','z',
   '0','1','2','3','4','5','6','7','8','9','+','/']

/-- Character for a sextet value. -/
def b64Char (n : Nat) : Char := b64Chars.getD n '?'

/-- Inverse table lookup, used only to invert `btoa` in proofs. -/
def unb64 (c : Char) : Nat := b64Chars.indexOf c

/-- base64-encode a byte list, with `=` padding, exactly as `btoa` does. -/
def btoa : List Nat → List Char
  | [] => []
  | [a] => [b64Char (a / 4), b64Char (a % 4 * 16), '=', '=']
  | [a, b] => [b64Char (a / 4), b64Char (a % 4 * 16 + b / 16),
               b64Char (b % 16 * 4), '=']
  | a :: b :: c :: rest =>
      b64Char (a / 4) :: b64Char (a % 4 * 16 + b / 16) ::
        b64Char (b % 16 * 4 + c / 64) :: b64Char (c % 64) :: btoa rest

/-- base64 decoder, the proof-side inverse of `btoa`. -/
def b64Decode : List Char → List Nat
  | c1 :: c2 :: c3 :: c4 :: rest =>
      if c3 = '=' then [unb64 c1 * 4 + unb64 c2 / 16]
      else if c4 = '=' then
        [unb64 c1 * 4 + unb64 c2 / 16, unb64 c2 % 16 * 16 + unb64 c3 / 4]
      else
        (unb64 c1 * 4 + unb64 c2 / 16) :: (unb64 c2 % 16 * 16 + unb64 c3 / 4) ::
          (unb64 c3 % 4 * 64 + unb64 c4) :: b64Decode rest
  | _ => []

/-- The Latin-1 bytes of a string, as `btoa` reads them. -/
def strBytes (s : String) : List Nat := s.data.map Char.toNat

/-- Source `hashPassword(password)`: `btoa(password + 'nerist_salt')` —
a reversible encoding, not a real hash (the spec flags this as a defect).
`btoa` throws `InvalidCharacterError` when some code point exceeds 255,
modelled by `none`. -/
def hashPassword (password : String) : Option String :=
  if (strBytes (password ++ "nerist_salt")).all (fun b => b < 256) then
    some (String.mk (btoa (strBytes (password ++ "nerist_salt"))))
  else none

/-! ## Generic keyed store

IndexedDB object stores are keyed collections; `put` is insert-or-replace
by primary key.  A store is modelled as a `List` of records, and `put`
replaces the record carrying the same key, or appends when the key is new. -/

section Store

variable {α : Type} {κ : Type} [BEq κ] [LawfulBEq κ]
def putRecord (key : α → κ) (l : List α) (x : α) : List α :=
  if l.any (fun y => key y == key x) then
    l.map (fun y => if key y == key x then x else y)
  else l ++ [x]

/-! ## Identity workflow (`users` store)

`User` keeps the fields the verified claims touch; the source's extra UI
fields (`year`, `avatarColor`, `emailPreferences`, `notificationSettings`)
are carried by no claim and are omitted.  `PublicUser` is the shape of the
source's `const { password, ...userWithoutPassword } = user` projection. -/
structure User where
  id : String
  username : String
  password : String
  email : String
  name : String
  role : String
  department : String
  createdAt : Nat
  lastLogin : Option Nat
  isActive : Bool
deriving DecidableEq, Repr

/-- A user record with the `password` credential field stripped. -/
structure PublicUser where
  id : String
  username : String
  email : String
  name : String
  role : String
  department : String
  createdAt : Nat
  lastLogin : Option Nat
  isActive : Bool
deriving DecidableEq, Repr

/-- Source `const { password, ...userWithoutPassword } = user`. -/
def stripPassword (u : User) : PublicUser :=
  ⟨u.id, u.username, u.email, u.name, u.role, u.department, u.createdAt,
   u.lastLogin, u.isActive⟩

/-- The caller-supplied `userData` of `registerUser`; absent optional
fields are the empty string (JavaScript `undefined` and `''` are both
falsy, which is what the source tests). -/
structure RegisterData where
  username : String
  password : String
  email : String
  name : String
  role : String
  department : String
deriving DecidableEq, Repr

def putUser (store : List User) (u : User) : List User :=
  putRecord User.id store u

def getUserById (store : List User) (userId : String) : Option User :=
  store.find? (fun u => u.id == userId)

def getUserByUsername (store : List User) (username : String) : Option User :=
  store.find? (fun u => u.username == username)

def getUserByEmail (store : List User) (email : String) : Option User :=
  store.find? (fun u => u.email == email)

/-- Source `registerUser(userData)`.  `newId` stands for the generated
`user_${Date.now()}_${random}` string and `now` for `Date.now()`. -/
def registerUser (store : List User) (data : RegisterData) (newId : String)
    (now : Nat) : Except DbError (List User × PublicUser) :=
  if data.username = "" ∨ data.password = "" ∨ data.email = "" ∨ data.role = "" then
    .error .validation
  else
    match getUserByUsername store data.username with
    | some _ => .error .usernameConflict
    | none =>
      match getUserByEmail store data.email with
      | some _ => .error .emailConflict
      | none =>
        match hashPassword data.password with
        | none => .error .invalidCharacter
        | some hashed =>
          let user : User :=
            { id := newId
              username := data.username
              password := hashed
              email := data.email
              name := if data.name = "" then data.username else data.name
              role := data.role
              department := data.department
              createdAt := now
              lastLogin := none
              isActive := true }
          .ok (putUser store user, stripPassword user)

/-- Source `login(username, password)`. -/
def login (store : List User) (username password : String) (now : Nat) :
    Except DbError (List User × PublicUser) :=
  match getUserByUsername store username with
  | none => .error .notFound
  | some user =>
    if !user.isActive then .error .deactivated
    else
      match hashPassword password with
      | none => .error .invalidCharacter
      | some hashedPassword =>
        if user.password ≠ hashedPassword then .error .invalidPassword
        else
          let user' := { user with lastLogin := some now }
          .ok (putUser store user', stripPassword user')

/-- Source `changePassword(userId, oldPassword, newPassword)`. -/
def changePassword (store : List User) (userId oldPassword newPassword : String) :
    Except DbError (List User × Bool) :=
  match getUserById store userId with
  | none => .error .notFound
  | some user =>
    match hashPassword oldPassword with
    | none => .error .invalidCharacter
    | some hOld =>
      if user.password ≠ hOld then .error .wrongCurrentPassword
      else
        match hashPassword newPassword with
        | none => .error .invalidCharacter
        | some hNew =>
          let user' := { user with password := hNew }
          .ok (putUser store user', true)

/-- The update set passed to `updateUserProfile`; `some v` means the field
is supplied with value `v`, `none` that it is absent. -/
structure ProfileUpdates where
  id : Option String := none
  username : Option String := none
  role : Option String := none
  createdAt : Option Nat := none
  name : Option String := none
  department : Option String := none
  email : Option String := none
deriving DecidableEq, Repr

/-- JavaScript truthiness of a possibly-absent string field. -/
def truthyStr : Option String → Bool
  | some v => v ≠ ""
  | none => false

/-- JavaScript truthiness of a possibly-absent numeric field. -/
def truthyNat : Option Nat → Bool
  | some v => v ≠ 0
  | none => false

/-- Source `updateUserProfile(userId, updates)`.  The restricted fields
`id`, `username`, `role`, `createdAt` are removed from the update set by
`if (updates[field]) delete updates[field]` — i.e. only when the supplied
value is truthy — and the surviving update set is spread over the user. -/
def updateUserProfile (store : List User) (userId : String)
    (updates : ProfileUpdates) : Except DbError (List User × PublicUser) :=
  match getUserById store userId with
  | none => .error .notFound
  | some user =>
    let upd : ProfileUpdates :=
      { updates with
        id := if truthyStr updates.id then none else updates.id
        username := if truthyStr updates.username then none else updates.username
        role := if truthyStr updates.role then none else updates.role
        createdAt := if truthyNat updates.createdAt then none else updates.createdAt }
    let updatedUser : User :=
      { user with
        id := upd.id.getD user.id
        username := upd.username.getD user.username
        role := upd.role.getD user.role
        createdAt := upd.createdAt.getD user.createdAt
        name := upd.name.getD user.name
        department := upd.department.getD user.department
        email := upd.email.getD user.email }
    .ok (putUser store updatedUser, stripPassword updatedUser)

/-! ## Attendance workflow (`attendance` store) -/
/-- An attendance event; only the fields read by `getAttendanceStats` are
kept (`date`/`subject`/`markedBy`/… are never consulted by the claims). -/
structure AttendanceRecord where
  studentId : String
  date : String
  subject : String
  status : String
deriving DecidableEq, Repr

/-- Source `getAttendanceForStudent(studentId)` with no date range: the
records of the student.  The source also sorts them by date (newest
first); the sort permutes the list and no claim here depends on the
order, so it is omitted. -/
def getAttendanceForStudent (store : List AttendanceRecord) (studentId : String) :
    List AttendanceRecord :=
  store.filter (fun a => a.studentId == studentId)

/-- The object returned by `getAttendanceStats`. -/
structure AttendanceStats where
  total : Nat
  present : Nat
  absent : Nat
  late : Nat
  percentage : ℤ
deriving DecidableEq, Repr

/-- Source `getAttendanceStats(studentId)`. -/
def getAttendanceStats (store : List AttendanceRecord) (studentId : String) :
    AttendanceStats :=
  let attendance := getAttendanceForStudent store studentId
  if attendance.length = 0 then
    { total := 0, present := 0, absent := 0, late := 0, percentage := 0 }
  else
    let total := attendance.length
    let present := (attendance.filter (fun a => a.status == "present")).length
    let absent := (attendance.filter (fun a => a.status == "absent")).length
    let late := (attendance.filter (fun a => a.status == "late")).length
    { total := total, present := present, absent := absent, late := late
      percentage := jsRound ((present : ℚ) / (total : ℚ) * 100) }

/-! ## Mess workflow (`messMenu` and `mealBookings` stores) -/
/-- An entry of a menu's embedded `bookings` array. -/
structure MenuBooking where
  studentId : String
  bookedAt : Nat
deriving DecidableEq, Repr

/-- An entry of a menu's embedded `feedback` array. -/
structure MenuFeedback where
  studentId : String
  rating : ℚ
  comment : String
  submittedAt : Nat
deriving DecidableEq, Repr

/-- A `messMenu` record, keyed by the composite string `date_mealType`.
`bookedCount`/`averageRating` start absent in the source (`undefined`);
they are modelled as starting at 0 and no claim reads them before the
operation that sets them. -/
structure MessMenu where
  id : String
  date : String
  mealType : String
  items : List String
  active : Bool
  bookings : List MenuBooking
  feedback : List MenuFeedback
  bookedCount : Nat
  averageRating : ℚ
  updatedAt : Nat
deriving DecidableEq, Repr

/-- A record of the separate `mealBookings` store, keyed by
`date_mealType_studentId`. -/
structure MealBookingRecord where
  id : String
  date : String
  mealType : String
  studentId : String
  bookedAt : Nat
deriving DecidableEq, Repr

/-- The two stores `bookMeal` writes. -/
structure MessState where
  menus : List MessMenu
  mealBookings : List MealBookingRecord
deriving DecidableEq, Repr

def putMenu (menus : List MessMenu) (m : MessMenu) : List MessMenu :=
  putRecord MessMenu.id menus m

/-- Source `bookMeal(date, mealType, studentId)`. -/
def bookMeal (s : MessState) (date mealType studentId : String) (now : Nat) :
    Except DbError (MessState × MessMenu) :=
  let menuId := date ++ "_" ++ mealType
  match s.menus.find? (fun m => m.id == menuId) with
  | none => .error .notFound
  | some menu =>
    if !menu.active then .error .inactiveMeal
    else if (menu.bookings.find? (fun b => b.studentId == studentId)).isSome then
      .error .duplicateBooking
    else
      let bookings' := menu.bookings ++ [{ studentId := studentId, bookedAt := now }]
      let menu' := { menu with
        bookings := bookings'
        bookedCount := bookings'.length
        updatedAt := now }
      let bookingRecord : MealBookingRecord :=
        { id := date ++ "_" ++ mealType ++ "_" ++ studentId
          date := date, mealType := mealType, studentId := studentId
          bookedAt := now }
      .ok ({ menus := putMenu s.menus menu'
             mealBookings := putRecord MealBookingRecord.id s.mealBookings bookingRecord },
           menu')

/-- Source `submitMealFeedback(date, mealType, studentId, rating, comment)`.
The average is `feedback.reduce((sum, f) => sum + f.rating, 0) / length`,
then `toFixed(1)`; the source stores the `toFixed` string, modelled here
by its rational value. -/
def submitMealFeedback (menus : List MessMenu) (date mealType studentId : String)
    (rating : ℚ) (comment : String) (now : Nat) :
    Except DbError (List MessMenu × MessMenu) :=
  let menuId := date ++ "_" ++ mealType
  match menus.find? (fun m => m.id == menuId) with
  | none => .error .notFound
  | some menu =>
    let feedback' := menu.feedback ++
      [{ studentId := studentId, rating := rating, comment := comment,
         submittedAt := now }]
    let averageRating' :=
      if 0 < feedback'.length then
        jsToFixed 1 ((feedback'.foldl (fun sum f => sum + f.rating) 0) /
          (feedback'.length : ℚ))
      else menu.averageRating
    let menu' := { menu with
      feedback := feedback'
      averageRating := averageRating'
      updatedAt := now }
    .ok (putMenu menus menu', menu')

/-! ## Career workflow (`careerOpportunities` and `studentApplications`) -/
/-- A career opportunity; `id` is the store's auto-increment key. -/
structure Opportunity where
  id : Nat
  title : String
  oppType : String
  deadline : Option Nat
  status : String
  eligibleDepartments : List String
  applicants : Nat
deriving DecidableEq, Repr

/-- A student application; `id` is the store's auto-increment key. -/
structure Application where
  id : Nat
  studentId : String
  studentName : String
  opportunityId : Nat
  status : String
  appliedDate : Nat
deriving DecidableEq, Repr

/-- The two stores `applyForOpportunity` touches, plus the next
auto-increment key of `studentApplications`. -/
structure CareerState where
  opportunities : List Opportunity
  applications : List Application
  nextAppId : Nat
deriving DecidableEq, Repr

/-- The authenticated `currentUser` as `applyForOpportunity` reads it. -/
structure Applicant where
  id : String
  name : String
deriving DecidableEq, Repr

/-- Source `opportunity.deadline && new Date(opportunity.deadline) < new Date()`. -/
def deadlinePassed (o : Opportunity) (now : Nat) : Bool :=
  match o.deadline with
  | some d => d < now
  | none => false

/-- Source `applyForOpportunity(opportunityId, studentData)`. -/
def applyForOpportunity (s : CareerState) (currentUser : Option Applicant)
    (opportunityId : Nat) (now : Nat) :
    Except DbError (CareerState × Application) :=
  match currentUser with
  | none => .error .notAuthenticated
  | some cu =>
    match s.opportunities.find? (fun o => o.id == opportunityId) with
    | none => .error .notFound
    | some opportunity =>
      if deadlinePassed opportunity now then .error .deadlinePassed
      else
        let existingApplications :=
          s.applications.filter (fun a => a.studentId == cu.id)
        if existingApplications.any (fun a => a.opportunityId == opportunityId) then
          .error .duplicateApplication
        else
          let application : Application :=
            { id := s.nextAppId
              studentId := cu.id
              studentName := cu.name
              opportunityId := opportunityId
              status := "pending"
              appliedDate := now }
          let opportunity' :=
            { opportunity with applicants := opportunity.applicants + 1 }
          .ok ({ opportunities := putRecord Opportunity.id s.opportunities opportunity'
                 applications := s.applications ++ [application]
                 nextAppId := s.nextAppId + 1 },
               application)

/-! ## Results workflow (`results` store) -/
/-- A subject row of a result record. -/
structure Subject where
  name : String
  grade : String
  credits : ℚ
deriving DecidableEq, Repr

/-- A `results` record, keyed by `studentId_semester`.  The stored
`sgpa` field is carried to show that reads never consult it. -/
structure ResultRecord where
  id : String
  studentId : String
  semester : Nat
  subjects : List Subject
  sgpa : ℚ
deriving DecidableEq, Repr

/-- JavaScript `String.prototype.toUpperCase()` on the ASCII grade
strings: uppercase every character. -/
def jsToUpper (s : String) : String := String.mk (s.data.map Char.toUpper)

/-- Source `getGradePoints(grade)`: fixed table, unknown grades map to 0
(`gradeMap[grade?.toUpperCase()] || 0`). -/
def getGradePoints (grade : String) : ℚ :=
  match jsToUpper grade with
  | "A+" => 10 | "A" => 9 | "A-" => 17/2
  | "B+" => 8 | "B" => 7 | "B-" => 6
  | "C+" => 5 | "C" => 4 | "C-" => 3
  | "D+" => 2 | "D" => 1 | "F" => 0
  | _ => 0

/-- Source `subject.credits || 1`: zero (or absent) credits count as 1. -/
def effCredits (c : ℚ) : ℚ := if c = 0 then 1 else c

/-- The CGPA accumulation loop of `getStudentResults`:
`totalGradePoints += gradePoints * (subject.credits || 1)` and
`totalCredits += subject.credits || 1` over every subject of every
semester record. -/
def resultTotals (records : List ResultRecord) : ℚ × ℚ :=
  records.foldl
    (fun acc r =>
      r.subjects.foldl
        (fun acc2 subject =>
          (acc2.1 + getGradePoints subject.grade * effCredits subject.credits,
           acc2.2 + effCredits subject.credits))
        acc)
    (0, 0)

/-- The object returned by `getStudentResults(studentId)` (no semester). -/
structure ResultsSummary where
  results : List ResultRecord
  cgpa : ℚ
  totalCredits : ℚ
deriving DecidableEq, Repr

/-- Source `getStudentResults(studentId)` with `semester = null`: fetch
the student's records and recompute the CGPA from their subjects.  The
source sorts the records by semester before the loop; the sort permutes
the list, leaving both sums unchanged, and no claim concerns the order of
`results`, so it is omitted. -/
def getStudentResults (store : List ResultRecord) (studentId : String) :
    ResultsSummary :=
  let allResults := store.filter (fun r => r.studentId == studentId)
  let totals := resultTotals allResults
  { results := allResults
    cgpa := if 0 < totals.2 then jsToFixed 2 (totals.1 / totals.2) else 0
    totalCredits := totals.2 }

/-! ## Alerts workflow (`campusAlerts` store) -/
/-- A campus alert; `expiry` is `none` when the stored field is falsy
(absent/empty), which the source treats as "never expires". -/
structure Alert where
  id : Nat
  title : String
  priority : String
  createdAt : Nat
  expiry : Option Nat
  isActive : Bool
  views : Nat
deriving DecidableEq, Repr

/-- Source `alert.expiry && new Date(alert.expiry) < now`. -/
def alertExpired (a : Alert) (now : Nat) : Bool :=
  match a.expiry with
  | some e => e < now
  | none => false

/-- The filter of `getActiveAlerts`: drop inactive alerts and alerts
whose expiry has passed (`new Date(alert.expiry) < now`). -/
def alertActiveFilter (a : Alert) (now : Nat) : Bool :=
  a.isActive && !alertExpired a now

/-- Source `priorityOrder = { high: 3, medium: 2, low: 1 }` with `|| 0`. -/
def priorityOrder (p : String) : Nat :=
  if p = "high" then 3 else if p = "medium" then 2 else if p = "low" then 1 else 0

/-- The comparator of `getActiveAlerts`' sort, as a `≤` test: `b` may
follow `a` when `a` has strictly higher priority, or equal priority and a
later-or-equal `createdAt`. -/
def alertLe (a b : Alert) : Bool :=
  priorityOrder b.priority < priorityOrder a.priority ||
    (priorityOrder b.priority == priorityOrder a.priority && b.createdAt ≤ a.createdAt)

/-- Source `getActiveAlerts(priority)`: filter to active-and-unexpired,
optionally restrict to one priority, then sort by priority (high first)
and `createdAt` (newest first).  The source's `Array.prototype.sort` is a
stable comparator sort, modelled by `List.mergeSort`. -/
def getActiveAlerts (store : List Alert) (now : Nat) (priority : Option String) :
    List Alert :=
  let alerts := store.filter (fun a => alertActiveFilter a now)
  let alerts : List Alert :=
    match priority with
    | some p => alerts.filter (fun a => a.priority == p)
    | none => alerts
  alerts.mergeSort alertLe

/-- One `putObject('campusAlerts', …)` step of the expiry sweep. -/
def sweepStep (now : Nat) (store : List Alert) (a : Alert) : List Alert :=
  if a.isActive && alertExpired a now then
    putRecord Alert.id store { a with isActive := false }
  else store

/-- The alert part of `performBackgroundSync`: iterate over a snapshot of
`campusAlerts` and deactivate every active, expired alert.  (The rest of
the source function trims the activity log and stamps `last_sync`, which
are different stores and outside every claim.) -/
def performBackgroundSync (store : List Alert) (now : Nat) : List Alert :=
  store.foldl (sweepStep now) store

/-- Four attendance records of one student: 3 present, 1 absent. -/
def attendanceC8 : List AttendanceRecord :=
  [{ studentId := "s1", date := "2025-01-06", subject := "Math", status := "present" },
   { studentId := "s1", date := "2025-01-07", subject := "Math", status := "present" },
   { studentId := "s1", date := "2025-01-08", subject := "Math", status := "absent" },
   { studentId := "s1", date := "2025-01-09", subject := "Math", status := "present" }]

/-- The two semester records of the claim's concrete example. -/
def resultsC4 : List ResultRecord :=
  [{ id := "stu1_1", studentId := "stu1", semester := 1,
     subjects := [{ name := "S1", grade := "A", credits := 4 }], sgpa := 0 },
   { id := "stu1_2", studentId := "stu1", semester := 2,
     subjects := [{ name := "S2", grade := "B", credits := 3 }], sgpa := 0 }]

/-- One record holding a single zero-credit subject. -/
def resultsC4zero : List ResultRecord :=
  [{ id := "z_1", studentId := "z", semester := 1,
     subjects := [{ name := "S", grade := "A", credits := 0 }], sgpa := 0 }]

/-- The CGPA exactly as the claim words it: sum of `gradePoint(grade) ×
credits` over all subjects, divided by the total credits, two decimals —
with no `credits || 1` defaulting. -/
def cgpaAsClaimed (records : List ResultRecord) : ℚ :=
  jsToFixed 2
    ((records.map (fun r => (r.subjects.map
        (fun s => getGradePoints s.grade * s.credits)).sum)).sum /
     (records.map (fun r => (r.subjects.map (fun s => s.credits)).sum)).sum)

/-- A stored user with role "student". -/
def userC9 : User :=
  { id := "u1", username := "alice", password := "pw", email := "a@x.y",
    name := "Alice", role := "student", department := "CSE", createdAt := 5,
    lastLogin := none, isActive := true }

/-- An update set supplying the restricted field `role` with the falsy
value `""`. -/
def updatesC9 : ProfileUpdates := { role := some "" }

/-- A concrete active menu with no bookings. -/
def menuC3 : MessMenu :=
  { id := "2025-01-06_lunch", date := "2025-01-06", mealType := "lunch",
    items := ["rice"], active := true, bookings := [], feedback := [],
    bookedCount := 0, averageRating := 0, updatedAt := 0 }

/-- The invariant of the career store: opportunity keys are unique (an
IndexedDB `keyPath` guarantee) and every opportunity's `applicants`
counter equals the number of stored applications that reference it. -/
def CounterInv (s : CareerState) : Prop :=
  (s.opportunities.map Opportunity.id).Nodup ∧
  ∀ opp ∈ s.opportunities,
    opp.applicants =
      (s.applications.filter (fun a => a.opportunityId == opp.id)).length

/-- One call of `applyForOpportunity` as seen from the store: the state
it leaves behind (errors leave the state untouched). -/
structure ApplyRequest where
  currentUser : Option Applicant
  opportunityId : Nat
  now : Nat

def applyCall (s : CareerState) (req : ApplyRequest) : CareerState :=
  match applyForOpportunity s req.currentUser req.opportunityId req.now with
  | .ok (s', _) => s'
  | .error _ => s

/-- Any sequence of `applyForOpportunity` calls. -/
def applySeq (s : CareerState) (reqs : List ApplyRequest) : CareerState :=
  reqs.foldl applyCall s

/-- A deadline-free opportunity with zero applicants. -/
def oppW : Opportunity :=
  { id := 1, title := "T", oppType := "internship", deadline := none,
    status := "active", eligibleDepartments := [], applicants := 0 }

/-- A concrete career store: one opportunity, no applications. -/
def careerW : CareerState :=
  { opportunities := [oppW], applications := [], nextAppId := 1 }

/-- Two alerts: one active and expired, one active and fresh. -/
def alertsW : List Alert :=
  [{ id := 1, title := "old", priority := "high", createdAt := 0,
     expiry := some 3, isActive := true, views := 0 },
   { id := 2, title := "new", priority := "low", createdAt := 1,
     expiry := some 99, isActive := true, views := 0 }]

/-- The claim's membership condition for `getActive`, as stated: active
alerts whose expiry is strictly in the future. -/
def activeAsClaimed (a : Alert) (now : Nat) : Prop :=
  a.isActive = true ∧ ∃ e, a.expiry = some e ∧ now < e

instance : ∀ a now, Decidable (activeAsClaimed a now) := fun a now =>
  inferInstanceAs (Decidable (_ ∧ _))

/-- An active alert whose expiry equals the current instant. -/
def alertC5 : Alert :=
  { id := 1, title := "t", priority := "high", createdAt := 0,
    expiry := some 5, isActive := true, views := 0 }

/-- A user whose stored credential encodes the password "old". -/
def userC10 : User :=
  { id := "u1", username := "alice", password := (hashPassword "old").getD "",
    email := "a@x.y", name := "Alice", role := "student", department := "CSE",
    createdAt := 0, lastLogin := none, isActive := true }

/-- A deactivated user whose stored credential encodes the password
"old". -/
def userC10d : User :=
  { id := "u1", username := "alice", password := (hashPassword "old").getD "",
    email := "a@x.y", name := "Alice", role := "student", department := "CSE",
    createdAt := 0, lastLogin := none, isActive := false }

/-- A candidate whose password contains the code point U+20AC, which
`btoa` rejects. -/
def dataC1 : RegisterData :=
  { username := "alice", password := "€", email := "a@x.y", name := "Alice",
    role := "student", department := "CSE" }

/-! ## Theorems -/

lemma unb64_b64Char : ∀ n, n < 64 → unb64 (b64Char n) = n := by decide

lemma b64Char_ne_pad : ∀ n, n < 64 → b64Char n ≠ '=' := by decide

lemma b64Decode_btoa : ∀ l : List Nat, (∀ b ∈ l, b < 256) → b64Decode (btoa l) = l := by
  intro l
  induction l using btoa.induct with
  | case1 => intro _; rfl
  | case2 a =>
      intro h
      have ha : a < 256 := h a (by simp)
      show b64Decode [b64Char (a / 4), b64Char (a % 4 * 16), '=', '='] = [a]
      rw [b64Decode, if_pos rfl]
      rw [unb64_b64Char _ (by omega), unb64_b64Char _ (by omega)]
      simp only [List.cons.injEq, and_true]
      omega
  | case3 a b =>
      intro h
      have ha : a < 256 := h a (by simp)
      have hb : b < 256 := h b (by simp)
      show b64Decode [b64Char (a / 4), b64Char (a % 4 * 16 + b / 16),
        b64Char (b % 16 * 4), '='] = [a, b]
      rw [b64Decode, if_neg (b64Char_ne_pad _ (by omega)), if_pos rfl]
      rw [unb64_b64Char _ (by omega), unb64_b64Char _ (by omega),
        unb64_b64Char _ (by omega)]
      simp only [List.cons.injEq, and_true]
      omega
  | case4 a b c rest ih =>
      intro h
      have ha : a < 256 := h a (by simp)
      have hb : b < 256 := h b (by simp)
      have hc : c < 256 := h c (by simp)
      have hrest : ∀ x ∈ rest, x < 256 := fun x hx => h x (by simp [hx])
      show b64Decode (b64Char (a / 4) :: b64Char (a % 4 * 16 + b / 16) ::
        b64Char (b % 16 * 4 + c / 64) :: b64Char (c % 64) :: btoa rest) = a :: b :: c :: rest
      rw [b64Decode, if_neg (b64Char_ne_pad _ (by omega)), if_neg (b64Char_ne_pad _ (by omega))]
      rw [unb64_b64Char _ (by omega), unb64_b64Char _ (by omega),
        unb64_b64Char _ (by omega), unb64_b64Char _ (by omega)]
      rw [ih hrest]
      simp only [List.cons.injEq, and_true]
      omega

lemma btoa_injOn {l₁ l₂ : List Nat} (h₁ : ∀ b ∈ l₁, b < 256)
    (h₂ : ∀ b ∈ l₂, b < 256) (h : btoa l₁ = btoa l₂) : l₁ = l₂ := by
  rw [← b64Decode_btoa l₁ h₁, ← b64Decode_btoa l₂ h₂, h]

lemma char_toNat_injective : Function.Injective Char.toNat := by
  intro a b h
  apply Char.eq_of_val_eq
  exact UInt32.toNat.inj h

/-- Injectivity of `hashPassword` wherever it succeeds: two passwords that
`btoa` accepts and that encode to the same stored credential are equal. -/
theorem hashPassword_injOn {p₁ p₂ hv : String}
    (e₁ : hashPassword p₁ = some hv) (e₂ : hashPassword p₂ = some hv) :
    p₁ = p₂ := by
  unfold hashPassword at e₁ e₂
  by_cases hb₁ : ((strBytes (p₁ ++ "nerist_salt")).all (fun b => b < 256)) = true
  case neg =>
    rw [if_neg hb₁] at e₁
    exact absurd e₁ (by simp)
  by_cases hb₂ : ((strBytes (p₂ ++ "nerist_salt")).all (fun b => b < 256)) = true
  case neg =>
    rw [if_neg hb₂] at e₂
    exact absurd e₂ (by simp)
  rw [if_pos hb₁] at e₁
  rw [if_pos hb₂] at e₂
  injection e₁ with e₁
  injection e₂ with e₂
  have e := e₁.trans e₂.symm
  injection e with e
  have hlt₁ : ∀ b ∈ strBytes (p₁ ++ "nerist_salt"), b < 256 := by
    intro b hb
    have := List.all_eq_true.mp hb₁ b hb
    simpa using this
  have hlt₂ : ∀ b ∈ strBytes (p₂ ++ "nerist_salt"), b < 256 := by
    intro b hb
    have := List.all_eq_true.mp hb₂ b hb
    simpa using this
  have hbytes : strBytes (p₁ ++ "nerist_salt") = strBytes (p₂ ++ "nerist_salt") :=
    btoa_injOn hlt₁ hlt₂ e
  have hdata : (p₁ ++ "nerist_salt").data = (p₂ ++ "nerist_salt").data :=
    List.map_injective_iff.mpr char_toNat_injective hbytes
  rw [String.data_append, String.data_append] at hdata
  have hfin : p₁.data = p₂.data := List.append_cancel_right hdata
  cases p₁; cases p₂; exact congrArg String.mk hfin

lemma putRecord_of_mem {α : Type} {κ : Type} [BEq κ] [LawfulBEq κ]
    {key : α → κ} {l : List α} {x x' : α}
    (hx : x ∈ l) (hk : key x' = key x) :
    putRecord key l x' = l.map (fun y => if key y == key x' then x' else y) := by
  unfold putRecord
  rw [if_pos]
  rw [List.any_eq_true]
  exact ⟨x, hx, by simp [hk]⟩

lemma find?_putRecord_self {α : Type} {κ : Type} [BEq κ] [LawfulBEq κ]
    (key : α → κ) (l : List α) (x' : α) :
    (putRecord key l x').find? (fun y => key y == key x') = some x' := by
  unfold putRecord
  split
  · rename_i hany
    induction l with
    | nil => simp at hany
    | cons a l ih =>
        by_cases ha : (key a == key x') = true
        · simp only [List.map_cons, if_pos ha]
          exact List.find?_cons_of_pos _ (by simpa using ha)
        · rw [List.any_cons] at hany
          simp only [ha] at hany
          simp only [List.map_cons, if_neg ha]
          rw [List.find?_cons_of_neg _ (by simpa using ha)]
          exact ih (by simpa using hany)
  · rw [List.find?_append]
    rename_i hany
    have hnone : l.find? (fun y => key y == key x') = none := by
      rw [List.find?_eq_none]
      intro y hy hc
      simp only [List.any_eq_true, not_exists] at hany
      exact absurd hc (by simpa using fun h => hany y ⟨hy, h⟩)
    simp [hnone]

lemma find?_replace_agree {α : Type} {κ : Type} [BEq κ] [LawfulBEq κ]
    {key : α → κ} {p : α → Bool} {x x' : α}
    (hpx' : p x' = true) :
    ∀ {l : List α}, l.find? p = some x →
      l.find? (fun y => key y == key x') = some x →
      (l.map (fun y => if key y == key x' then x' else y)).find? p = some x' := by
  intro l
  induction l with
  | nil => intro hp _; simp at hp
  | cons a l ih =>
      intro hp hk
      by_cases hka : (key a == key x') = true
      · simp only [List.map_cons, if_pos hka, List.find?_cons_of_pos _ hpx']
      · by_cases hpa : p a = true
        · have hx : x = a := by
            rw [List.find?_cons_of_pos _ hpa] at hp
            exact (Option.some.inj hp).symm
          have hkx : (key x == key x') = true := by
            have := List.find?_some hk
            simpa using this
          rw [hx] at hkx
          exact absurd hkx hka
        · rw [List.find?_cons_of_neg _ hpa] at hp
          rw [List.find?_cons_of_neg _ (by simpa using hka)] at hk
          simp only [List.map_cons, if_neg hka]
          rw [List.find?_cons_of_neg _ hpa]
          exact ih hp hk

lemma find?_putRecord_agree {α : Type} {κ : Type} [BEq κ] [LawfulBEq κ]
    {key : α → κ} {p : α → Bool} {l : List α} {x x' : α}
    (hp : l.find? p = some x) (hk : l.find? (fun y => key y == key x') = some x)
    (hpx' : p x' = true) :
    (putRecord key l x').find? p = some x' := by
  have hkey : key x' = key x := by
    have := List.find?_some hk
    simp only [beq_iff_eq] at this
    exact this.symm
  rw [putRecord_of_mem (List.mem_of_find?_eq_some hp) hkey]
  exact find?_replace_agree hpx' hp hk

lemma find?_putRecord_new {α : Type} {κ : Type} [BEq κ] [LawfulBEq κ]
    {key : α → κ} {p : α → Bool} {l : List α} {x' : α}
    (hnone : l.find? p = none) (hpx' : p x' = true) :
    (putRecord key l x').find? p = some x' := by
  unfold putRecord
  split
  · rename_i hany
    induction l with
    | nil => simp at hany
    | cons a l ih =>
        rw [List.find?_eq_none] at hnone
        have hpa : ¬ p a = true := hnone a (by simp)
        have hnone' : l.find? p = none := by
          rw [List.find?_eq_none]
          intro y hy
          exact hnone y (by simp [hy])
        by_cases hka : (key a == key x') = true
        · simp only [List.map_cons, if_pos hka, List.find?_cons_of_pos _ hpx']
        · rw [List.any_cons] at hany
          simp only [hka] at hany
          simp only [List.map_cons, if_neg hka]
          rw [List.find?_cons_of_neg _ hpa]
          exact ih hnone' (by simpa using hany)
  · rw [List.find?_append, hnone]
    simp [hpx']

/-! ## Claim C8 — attendance statistics -/

/-- C8: `getStats(studentId)` returns `percentage = round(present / total × 100)`
where `total` is the number of the student's attendance records and
`present`/`absent`/`late` are the per-status counts; 3 present, 1 absent,
0 late out of 4 yields `percentage = 75`; and a student with no records
gets the all-zero stats object rather than an error. -/
theorem getAttendanceStats_percentage :
    (∀ (store : List AttendanceRecord) (studentId : String),
      (getAttendanceStats store studentId).total =
          (getAttendanceForStudent store studentId).length ∧
      (getAttendanceStats store studentId).present =
          ((getAttendanceForStudent store studentId).filter
            (fun a => a.status == "present")).length ∧
      (getAttendanceStats store studentId).absent =
          ((getAttendanceForStudent store studentId).filter
            (fun a => a.status == "absent")).length ∧
      (getAttendanceStats store studentId).late =
          ((getAttendanceForStudent store studentId).filter
            (fun a => a.status == "late")).length ∧
      (getAttendanceStats store studentId).percentage =
          jsRound (((getAttendanceStats store studentId).present : ℚ) /
            ((getAttendanceStats store studentId).total : ℚ) * 100)) ∧
    (∀ (store : List AttendanceRecord) (studentId : String),
      getAttendanceForStudent store studentId = [] →
      getAttendanceStats store studentId = ⟨0, 0, 0, 0, 0⟩) ∧
    getAttendanceStats attendanceC8 "s1" = ⟨4, 3, 1, 0, 75⟩ := by
  refine ⟨?_, ?_, ?_⟩
  · intro store studentId
    by_cases h : (getAttendanceForStudent store studentId).length = 0
    · have hnil : getAttendanceForStudent store studentId = [] :=
        List.length_eq_zero.mp h
      simp only [getAttendanceStats, hnil]
      norm_num [jsRound]
    · simp only [getAttendanceStats, if_neg h]
      simp
  · intro store studentId h
    simp [getAttendanceStats, h]
  · have hfor : getAttendanceForStudent attendanceC8 "s1" = attendanceC8 := by decide
    have hlen : attendanceC8.length = 4 := by decide
    have h1 : (attendanceC8.filter (fun a => a.status == "present")).length = 3 := by decide
    have h2 : (attendanceC8.filter (fun a => a.status == "absent")).length = 1 := by decide
    have h3 : (attendanceC8.filter (fun a => a.status == "late")).length = 0 := by decide
    simp only [getAttendanceStats, hfor, hlen, h1, h2, h3]
    norm_num [jsRound, AttendanceStats.mk.injEq]

/-- Evaluation of `getAttendanceStats_percentage`'s empty-store branch at a
concrete input. -/
theorem getAttendanceStats_percentage_witness :
    getAttendanceStats [] "s9" = ⟨0, 0, 0, 0, 0⟩ :=
  getAttendanceStats_percentage.2.1 [] "s9" rfl

/-! ## Claim C4 — CGPA computation -/

lemma subjects_foldl_eq (subjects : List Subject) (acc : ℚ × ℚ) :
    subjects.foldl
      (fun acc2 subject =>
        (acc2.1 + getGradePoints subject.grade * effCredits subject.credits,
         acc2.2 + effCredits subject.credits)) acc =
    (acc.1 + (subjects.map
        (fun s => getGradePoints s.grade * effCredits s.credits)).sum,
     acc.2 + (subjects.map (fun s => effCredits s.credits)).sum) := by
  induction subjects generalizing acc with
  | nil => simp
  | cons s rest ih =>
      simp only [List.foldl_cons, List.map_cons, List.sum_cons, ih]
      simp only [Prod.mk.injEq]
      constructor <;> ring

/-- The accumulation loop of `getStudentResults` computes the two sums. -/
lemma resultTotals_eq (records : List ResultRecord) :
    resultTotals records =
      ((records.map (fun r => (r.subjects.map
          (fun s => getGradePoints s.grade * effCredits s.credits)).sum)).sum,
       (records.map (fun r => (r.subjects.map
          (fun s => effCredits s.credits)).sum)).sum) := by
  unfold resultTotals
  suffices h : ∀ acc : ℚ × ℚ, records.foldl
      (fun acc r =>
        r.subjects.foldl
          (fun acc2 subject =>
            (acc2.1 + getGradePoints subject.grade * effCredits subject.credits,
             acc2.2 + effCredits subject.credits)) acc) acc =
      (acc.1 + (records.map (fun r => (r.subjects.map
          (fun s => getGradePoints s.grade * effCredits s.credits)).sum)).sum,
       acc.2 + (records.map (fun r => (r.subjects.map
          (fun s => effCredits s.credits)).sum)).sum) by
    simpa using h (0, 0)
  induction records with
  | nil => intro acc; simp
  | cons r rest ih =>
      intro acc
      simp only [List.foldl_cons]
      rw [subjects_foldl_eq, ih]
      simp only [List.map_cons, List.sum_cons, Prod.mk.injEq]
      constructor <;> ring

/-- C4 (counterexample to the claim as stated): on a record holding one
subject with grade "A" and `credits = 0`, the code returns cgpa 9 — the
`credits || 1` defaulting counts the subject with weight 1 — while the
claim's formula (grade points × credits over total credits) yields 0. -/
theorem getStudentResults_zero_credits_counterexample :
    (getStudentResults resultsC4zero "z").cgpa = 9 ∧
    cgpaAsClaimed (resultsC4zero.filter (fun r => r.studentId == "z")) = 0 ∧
    (getStudentResults resultsC4zero "z").cgpa ≠
      cgpaAsClaimed (resultsC4zero.filter (fun r => r.studentId == "z")) := by
  have hfor : resultsC4zero.filter (fun r => r.studentId == "z") = resultsC4zero := rfl
  have hA : getGradePoints "A" = 9 := rfl
  refine ⟨?_, ?_, ?_⟩
  · simp only [getStudentResults, hfor, resultTotals_eq, resultsC4zero,
      List.map_cons, List.map_nil, List.sum_cons, List.sum_nil]
    norm_num [effCredits, jsToFixed, hA]
  · simp only [cgpaAsClaimed, hfor, resultsC4zero, List.map_cons, List.map_nil,
      List.sum_cons, List.sum_nil]
    norm_num [jsToFixed, hA]
  · simp only [getStudentResults, cgpaAsClaimed, hfor, resultTotals_eq,
      resultsC4zero, List.map_cons, List.map_nil, List.sum_cons, List.sum_nil]
    norm_num [effCredits, jsToFixed, hA]

/-- C4 (amended): the cgpa returned by `getStudentResults(studentId)` (no
semester) is the sum over all subjects of all the student's semester
records of `gradePoint(grade) × (credits, or 1 when credits is 0/absent)`,
divided by the total of those effective credits, rounded to two decimals
(0 when there are no effective credits); it is recomputed on read — the
stored `sgpa` fields do not influence it; the grade table gives A+ = 10,
A = 9, B = 7, F = 0 and unknown grades 0; and the claim's concrete example
yields 8.14. -/
theorem getStudentResults_cgpa_formula :
    (∀ (store : List ResultRecord) (studentId : String),
      (getStudentResults store studentId).cgpa =
        (if 0 < ((store.filter (fun r => r.studentId == studentId)).map
            (fun r => (r.subjects.map (fun s => effCredits s.credits)).sum)).sum then
          jsToFixed 2
            ((((store.filter (fun r => r.studentId == studentId)).map
                (fun r => (r.subjects.map
                  (fun s => getGradePoints s.grade * effCredits s.credits)).sum)).sum) /
             (((store.filter (fun r => r.studentId == studentId)).map
                (fun r => (r.subjects.map (fun s => effCredits s.credits)).sum)).sum))
        else 0)) ∧
    (∀ (store : List ResultRecord) (studentId : String) (f : ResultRecord → ℚ),
      (getStudentResults (store.map (fun r => { r with sgpa := f r })) studentId).cgpa =
        (getStudentResults store studentId).cgpa) ∧
    (getStudentResults resultsC4 "stu1").cgpa = 814/100 ∧
    getGradePoints "A+" = 10 ∧ getGradePoints "A" = 9 ∧ getGradePoints "B" = 7 ∧
    getGradePoints "F" = 0 ∧ getGradePoints "ZZ" = 0 := by
  have hgen : ∀ (store : List ResultRecord) (studentId : String),
      (getStudentResults store studentId).cgpa =
        (if 0 < ((store.filter (fun r => r.studentId == studentId)).map
            (fun r => (r.subjects.map (fun s => effCredits s.credits)).sum)).sum then
          jsToFixed 2
            ((((store.filter (fun r => r.studentId == studentId)).map
                (fun r => (r.subjects.map
                  (fun s => getGradePoints s.grade * effCredits s.credits)).sum)).sum) /
             (((store.filter (fun r => r.studentId == studentId)).map
                (fun r => (r.subjects.map (fun s => effCredits s.credits)).sum)).sum))
        else 0) := by
    intro store studentId
    simp only [getStudentResults, resultTotals_eq]
  refine ⟨hgen, ?_, ?_, rfl, rfl, rfl, rfl, rfl⟩
  · intro store studentId f
    rw [hgen, hgen]
    have hfilter : (store.map (fun r => { r with sgpa := f r })).filter
        (fun r => r.studentId == studentId) =
        (store.filter (fun r => r.studentId == studentId)).map
          (fun r => { r with sgpa := f r }) := by
      induction store with
      | nil => simp
      | cons r rest ih =>
          by_cases hr : (r.studentId == studentId) = true
          · simp [List.filter_cons, hr, ih]
          · simp [List.filter_cons, hr, ih]
    rw [hfilter, List.map_map, List.map_map]
    rfl
  · have hfor : resultsC4.filter (fun r => r.studentId == "stu1") = resultsC4 := rfl
    have hA : getGradePoints "A" = 9 := rfl
    have hB : getGradePoints "B" = 7 := rfl
    rw [hgen, hfor]
    simp only [resultsC4, List.map_cons, List.map_nil, List.sum_cons, List.sum_nil]
    norm_num [effCredits, jsToFixed, hA, hB]

/-! ## Claim C9 — profile-update restricted fields -/

/-- C9 (counterexample to the claim as stated): supplying `role: ""` — a
falsy value — for the restricted `role` field is NOT dropped: the guard
`if (updates[field]) delete updates[field]` skips falsy values, so the
spread overwrites the stored role "student" with "". -/
theorem updateUserProfile_falsy_counterexample :
    (updateUserProfile [userC9] "u1" updatesC9).map (fun r => r.1.map User.role) =
      .ok [""] ∧ userC9.role = "student" := by
  constructor
  · rfl
  · rfl

/-- C9 (amended): `updateProfile(id, updates)` silently drops the fields
`id`, `username`, `role`, `createdAt` from the update set only when the
supplied value is truthy — those fields then keep their stored values —
while a falsy supplied value (empty string, 0) escapes the drop and
overwrites the stored field; the remaining supplied fields are applied
and the password is never touched. -/
theorem updateUserProfile_restricted_fields
    (store : List User) (userId : String) (updates : ProfileUpdates) (user : User)
    (hfind : getUserById store userId = some user) :
    ∃ user', updateUserProfile store userId updates =
        .ok (putUser store user', stripPassword user') ∧
      (truthyStr updates.id = true → user'.id = user.id) ∧
      (truthyStr updates.username = true → user'.username = user.username) ∧
      (truthyStr updates.role = true → user'.role = user.role) ∧
      (truthyNat updates.createdAt = true → user'.createdAt = user.createdAt) ∧
      (updates.id = some "" → user'.id = "") ∧
      (updates.username = some "" → user'.username = "") ∧
      (updates.role = some "" → user'.role = "") ∧
      (updates.createdAt = some 0 → user'.createdAt = 0) ∧
      (updates.id = none → user'.id = user.id) ∧
      (updates.username = none → user'.username = user.username) ∧
      (updates.role = none → user'.role = user.role) ∧
      (updates.createdAt = none → user'.createdAt = user.createdAt) ∧
      (∀ v, updates.name = some v → user'.name = v) ∧
      (updates.name = none → user'.name = user.name) ∧
      (∀ v, updates.department = some v → user'.department = v) ∧
      (updates.department = none → user'.department = user.department) ∧
      (∀ v, updates.email = some v → user'.email = v) ∧
      (updates.email = none → user'.email = user.email) ∧
      user'.password = user.password := by
  refine ⟨{ user with
      id := (if truthyStr updates.id then none else updates.id).getD user.id
      username :=
        (if truthyStr updates.username then none else updates.username).getD user.username
      role := (if truthyStr updates.role then none else updates.role).getD user.role
      createdAt :=
        (if truthyNat updates.createdAt then none else updates.createdAt).getD user.createdAt
      name := updates.name.getD user.name
      department := updates.department.getD user.department
      email := updates.email.getD user.email }, ?_, ?_, ?_, ?_, ?_, ?_, ?_, ?_,
    ?_, ?_, ?_, ?_, ?_, ?_, ?_, ?_, ?_, ?_, ?_, rfl⟩
  · simp only [updateUserProfile, hfind]
  all_goals
    first
      | (intro h; simp [h]; done)
      | (intro h; simp [h, truthyStr, truthyNat]; done)
      | (intro v h; simp [h])

/-- Evaluation of `updateUserProfile_restricted_fields` at a concrete
one-user store with the falsy `role: ""` update set. -/
theorem updateUserProfile_restricted_fields_witness :
    getUserById [userC9] "u1" = some userC9 ∧
    (∃ user', updateUserProfile [userC9] "u1" updatesC9 =
        .ok (putUser [userC9] user', stripPassword user') ∧
      (truthyStr updatesC9.id = true → user'.id = userC9.id) ∧
      (truthyStr updatesC9.username = true → user'.username = userC9.username) ∧
      (truthyStr updatesC9.role = true → user'.role = userC9.role) ∧
      (truthyNat updatesC9.createdAt = true → user'.createdAt = userC9.createdAt) ∧
      (updatesC9.id = some "" → user'.id = "") ∧
      (updatesC9.username = some "" → user'.username = "") ∧
      (updatesC9.role = some "" → user'.role = "") ∧
      (updatesC9.createdAt = some 0 → user'.createdAt = 0) ∧
      (updatesC9.id = none → user'.id = userC9.id) ∧
      (updatesC9.username = none → user'.username = userC9.username) ∧
      (updatesC9.role = none → user'.role = userC9.role) ∧
      (updatesC9.createdAt = none → user'.createdAt = userC9.createdAt) ∧
      (∀ v, updatesC9.name = some v → user'.name = v) ∧
      (updatesC9.name = none → user'.name = userC9.name) ∧
      (∀ v, updatesC9.department = some v → user'.department = v) ∧
      (updatesC9.department = none → user'.department = userC9.department) ∧
      (∀ v, updatesC9.email = some v → user'.email = v) ∧
      (updatesC9.email = none → user'.email = userC9.email) ∧
      user'.password = userC9.password) :=
  ⟨rfl, updateUserProfile_restricted_fields [userC9] "u1" updatesC9 userC9 rfl⟩

/-! ## Claim C3 — meal booking -/

/-- C3: for an active stored menu, `bookMeal` succeeds the first time and
fails with the duplicate-booking error when called again with the same
`(date, mealType, studentId)`; afterwards the stored menu holds exactly
one booking for that student and `bookedCount` equals the length of the
bookings list; `bookMeal` on an absent menu fails with the not-found
error and on an inactive menu with the inactive error. -/
theorem bookMeal_spec :
    (∀ (s : MessState) (date mealType studentId : String) (now now₂ : Nat)
        (menu : MessMenu),
      s.menus.find? (fun m => m.id == date ++ "_" ++ mealType) = some menu →
      menu.active = true →
      menu.bookings.find? (fun b => b.studentId == studentId) = none →
      ∃ s₁ menu', bookMeal s date mealType studentId now = .ok (s₁, menu') ∧
        s₁.menus.find? (fun m => m.id == date ++ "_" ++ mealType) = some menu' ∧
        (menu'.bookings.filter (fun b => b.studentId == studentId)).length = 1 ∧
        menu'.bookedCount = menu'.bookings.length ∧
        bookMeal s₁ date mealType studentId now₂ = .error .duplicateBooking) ∧
    (∀ (s : MessState) (date mealType studentId : String) (now : Nat),
      s.menus.find? (fun m => m.id == date ++ "_" ++ mealType) = none →
      bookMeal s date mealType studentId now = .error .notFound) ∧
    (∀ (s : MessState) (date mealType studentId : String) (now : Nat)
        (menu : MessMenu),
      s.menus.find? (fun m => m.id == date ++ "_" ++ mealType) = some menu →
      menu.active = false →
      bookMeal s date mealType studentId now = .error .inactiveMeal) := by
  refine ⟨?_, ?_, ?_⟩
  · intro s date mealType studentId now now₂ menu hfind hact hnew
    have hid : menu.id = date ++ "_" ++ mealType := by
      simpa using List.find?_some hfind
    let entry : MenuBooking := { studentId := studentId, bookedAt := now }
    let M : MessMenu := { menu with
      bookings := menu.bookings ++ [entry]
      bookedCount := (menu.bookings ++ [entry]).length
      updatedAt := now }
    have hMactive : M.active = true := hact
    have hMid : M.id = date ++ "_" ++ mealType := hid
    have hfind₁ : (putMenu s.menus M).find?
        (fun m => m.id == date ++ "_" ++ mealType) = some M := by
      have hpred : (fun (m : MessMenu) => m.id == date ++ "_" ++ mealType) =
          (fun m => m.id == MessMenu.id M) := by
        funext m
        rw [← hid]
      rw [hpred]
      exact find?_putRecord_self MessMenu.id s.menus M
    have hMdup : (M.bookings.find? (fun b => b.studentId == studentId)).isSome = true := by
      show ((menu.bookings ++ [entry]).find?
        (fun b => b.studentId == studentId)).isSome = true
      rw [List.find?_append, hnew]
      simp
    refine ⟨⟨putMenu s.menus M, putRecord MealBookingRecord.id s.mealBookings
        { id := date ++ "_" ++ mealType ++ "_" ++ studentId, date := date,
          mealType := mealType, studentId := studentId, bookedAt := now }⟩,
      M, ?_, hfind₁, ?_, rfl, ?_⟩
    · simp only [bookMeal, hfind]
      rw [if_neg (show ¬((!menu.active) = true) by simp [hact]),
        if_neg (show ¬(((menu.bookings.find?
          (fun b => b.studentId == studentId)).isSome) = true) by simp [hnew])]
    · show ((menu.bookings ++ [entry]).filter
        (fun b => b.studentId == studentId)).length = 1
      rw [List.filter_append]
      have h0 : menu.bookings.filter (fun b => b.studentId == studentId) = [] := by
        rw [List.filter_eq_nil_iff]
        intro b hb
        rw [List.find?_eq_none] at hnew
        exact hnew b hb
      simp [h0, entry]
    · simp only [bookMeal, hfind₁]
      rw [if_neg (show ¬((!M.active) = true) by simp [hact]), if_pos hMdup]
  · intro s date mealType studentId now hnone
    simp only [bookMeal, hnone]
  · intro s date mealType studentId now menu hfind hact
    simp only [bookMeal, hfind, hact]
    rfl

/-- Evaluation of `bookMeal_spec` at a concrete one-menu store. -/
theorem bookMeal_spec_witness :
    ∃ s₁ menu', bookMeal ⟨[menuC3], []⟩ "2025-01-06" "lunch" "s1" 3 = .ok (s₁, menu') ∧
      s₁.menus.find? (fun m => m.id == "2025-01-06" ++ "_" ++ "lunch") = some menu' ∧
      (menu'.bookings.filter (fun b => b.studentId == "s1")).length = 1 ∧
      menu'.bookedCount = menu'.bookings.length ∧
      bookMeal s₁ "2025-01-06" "lunch" "s1" 7 = .error .duplicateBooking :=
  bookMeal_spec.1 ⟨[menuC3], []⟩ "2025-01-06" "lunch" "s1" 3 7 menuC3 rfl rfl rfl

/-! ## Claim C7 — meal feedback and average rating -/

lemma find?_putMenu_self {menus : List MessMenu} {M : MessMenu} {k : String}
    (hidM : M.id = k) :
    (putMenu menus M).find? (fun m => m.id == k) = some M := by
  have hpred : (fun (m : MessMenu) => m.id == k) =
      (fun m => m.id == MessMenu.id M) := by
    funext m
    rw [hidM]
  rw [hpred]
  exact find?_putRecord_self MessMenu.id menus M

lemma feedback_foldl_sum (l : List MenuFeedback) :
    ∀ acc : ℚ, l.foldl (fun sum f => sum + f.rating) acc =
      acc + (l.map MenuFeedback.rating).sum := by
  induction l with
  | nil => intro acc; simp
  | cons f rest ih =>
      intro acc
      simp only [List.foldl_cons, ih, List.map_cons, List.sum_cons]
      ring

/-- C7: for a stored menu, `submitFeedback` appends one entry to the
embedded feedback list and stores `averageRating` as the mean of all
ratings of that list rounded to one decimal, so the stored average is
never stale; and a second submission by the same student is accepted
as well, appending a second entry and again refreshing the average. -/
theorem submitMealFeedback_spec
    (menus : List MessMenu) (date mealType studentId : String) (rating : ℚ)
    (comment : String) (now : Nat) (menu : MessMenu)
    (hfind : menus.find? (fun m => m.id == date ++ "_" ++ mealType) = some menu) :
    ∃ menus₁ menu₁,
      submitMealFeedback menus date mealType studentId rating comment now =
        .ok (menus₁, menu₁) ∧
      menu₁.feedback = menu.feedback ++
        [{ studentId := studentId, rating := rating, comment := comment,
           submittedAt := now }] ∧
      menu₁.averageRating =
        jsToFixed 1 ((menu₁.feedback.map MenuFeedback.rating).sum /
          (menu₁.feedback.length : ℚ)) ∧
      menus₁.find? (fun m => m.id == date ++ "_" ++ mealType) = some menu₁ ∧
      (∀ (rating₂ : ℚ) (comment₂ : String) (now₂ : Nat),
        ∃ menus₂ menu₂,
          submitMealFeedback menus₁ date mealType studentId rating₂ comment₂ now₂ =
            .ok (menus₂, menu₂) ∧
          menu₂.feedback = menu₁.feedback ++
            [{ studentId := studentId, rating := rating₂, comment := comment₂,
               submittedAt := now₂ }] ∧
          menu₂.averageRating =
            jsToFixed 1 ((menu₂.feedback.map MenuFeedback.rating).sum /
              (menu₂.feedback.length : ℚ)) ∧
          menus₂.find? (fun m => m.id == date ++ "_" ++ mealType) = some menu₂) := by
  have hid : menu.id = date ++ "_" ++ mealType := by
    simpa using List.find?_some hfind
  have step : ∀ (ms : List MessMenu) (m : MessMenu) (r : ℚ) (c : String) (t : Nat),
      ms.find? (fun x => x.id == date ++ "_" ++ mealType) = some m →
      m.id = date ++ "_" ++ mealType →
      ∃ ms' m',
        submitMealFeedback ms date mealType studentId r c t = .ok (ms', m') ∧
        m'.feedback = m.feedback ++
          [{ studentId := studentId, rating := r, comment := c, submittedAt := t }] ∧
        m'.averageRating =
          jsToFixed 1 ((m'.feedback.map MenuFeedback.rating).sum /
            (m'.feedback.length : ℚ)) ∧
        m'.id = date ++ "_" ++ mealType ∧
        ms'.find? (fun x => x.id == date ++ "_" ++ mealType) = some m' := by
    intro ms m r c t hf hmid
    let e : MenuFeedback :=
      { studentId := studentId, rating := r, comment := c, submittedAt := t }
    let F : List MenuFeedback := m.feedback ++ [e]
    have hFpos : 0 < F.length := by
      show 0 < (m.feedback ++ [e]).length
      simp
    let M : MessMenu := { m with
      feedback := F
      averageRating := jsToFixed 1 ((F.foldl (fun sum f => sum + f.rating) 0) /
        (F.length : ℚ))
      updatedAt := t }
    refine ⟨putMenu ms M, M, ?_, rfl, ?_, hmid, find?_putMenu_self hmid⟩
    · simp only [submitMealFeedback, hf]
      rw [if_pos hFpos]
    · show jsToFixed 1 ((F.foldl (fun sum f => sum + f.rating) 0) / (F.length : ℚ)) =
        jsToFixed 1 ((F.map MenuFeedback.rating).sum / (F.length : ℚ))
      rw [feedback_foldl_sum]
      norm_num
  obtain ⟨ms₁, m₁, h1, h2, h3, h4, h5⟩ :=
    step menus menu rating comment now hfind hid
  refine ⟨ms₁, m₁, h1, h2, h3, h5, ?_⟩
  intro rating₂ comment₂ now₂
  obtain ⟨ms₂, m₂, g1, g2, g3, g4, g5⟩ :=
    step ms₁ m₁ rating₂ comment₂ now₂ h5 h4
  exact ⟨ms₂, m₂, g1, g2, g3, g5⟩

/-- Evaluation of `submitMealFeedback_spec` at a concrete one-menu store. -/
theorem submitMealFeedback_spec_witness :
    ∃ menus₁ menu₁,
      submitMealFeedback [menuC3] "2025-01-06" "lunch" "s1" 4 "good" 9 =
        .ok (menus₁, menu₁) ∧
      menu₁.feedback = menuC3.feedback ++
        [{ studentId := "s1", rating := 4, comment := "good", submittedAt := 9 }] ∧
      menu₁.averageRating =
        jsToFixed 1 ((menu₁.feedback.map MenuFeedback.rating).sum /
          (menu₁.feedback.length : ℚ)) ∧
      menus₁.find? (fun m => m.id == "2025-01-06" ++ "_" ++ "lunch") = some menu₁ ∧
      (∀ (rating₂ : ℚ) (comment₂ : String) (now₂ : Nat),
        ∃ menus₂ menu₂,
          submitMealFeedback menus₁ "2025-01-06" "lunch" "s1" rating₂ comment₂ now₂ =
            .ok (menus₂, menu₂) ∧
          menu₂.feedback = menu₁.feedback ++
            [{ studentId := "s1", rating := rating₂, comment := comment₂,
               submittedAt := now₂ }] ∧
          menu₂.averageRating =
            jsToFixed 1 ((menu₂.feedback.map MenuFeedback.rating).sum /
              (menu₂.feedback.length : ℚ)) ∧
          menus₂.find? (fun m => m.id == "2025-01-06" ++ "_" ++ "lunch") = some menu₂) :=
  submitMealFeedback_spec [menuC3] "2025-01-06" "lunch" "s1" 4 "good" 9 menuC3 rfl

/-! ## Claim C2 — applications and the applicants counter -/

lemma find?_putRecord_key {α κ : Type} [BEq κ] [LawfulBEq κ] (key : α → κ)
    (l : List α) (x' : α) (k : κ) (hk : key x' = k) :
    (putRecord key l x').find? (fun y => key y == k) = some x' := by
  subst hk
  exact find?_putRecord_self key l x'

/-- Replacing a record by one carrying the same key leaves the key column
of the store unchanged. -/
lemma map_key_replace {α κ : Type} [BEq κ] [LawfulBEq κ] (key : α → κ)
    (l : List α) (x' : α) :
    (l.map (fun y => if key y == key x' then x' else y)).map key = l.map key := by
  rw [List.map_map]
  apply List.map_congr_left
  intro o _
  by_cases hco : (key o == key x') = true
  · simp only [Function.comp_apply, if_pos hco]
    exact ((by simpa using hco : key o = key x')).symm
  · simp [Function.comp, hco]

lemma applyForOpportunity_preserves_inv {s s' : CareerState}
    {cu : Option Applicant} {oid now : Nat} {r : Application}
    (hinv : CounterInv s) (h : applyForOpportunity s cu oid now = .ok (s', r)) :
    CounterInv s' := by
  rcases cu with _ | cu
  · simp [applyForOpportunity] at h
  cases hfind : s.opportunities.find? (fun o => o.id == oid) with
  | none => simp [applyForOpportunity, hfind] at h
  | some opp =>
      simp only [applyForOpportunity, hfind] at h
      by_cases hdl : deadlinePassed opp now = true
      · rw [if_pos hdl] at h
        simp at h
      rw [if_neg hdl] at h
      by_cases hdup : ((s.applications.filter
          (fun a => a.studentId == cu.id)).any
          (fun a => a.opportunityId == oid)) = true
      · rw [if_pos hdup] at h
        simp at h
      rw [if_neg hdup] at h
      have hmem : opp ∈ s.opportunities := List.mem_of_find?_eq_some hfind
      have hoid : opp.id = oid := by simpa using List.find?_some hfind
      obtain ⟨app, happ⟩ : ∃ a : Application,
          a = { id := s.nextAppId, studentId := cu.id, studentName := cu.name,
                opportunityId := oid, status := "pending", appliedDate := now } :=
        ⟨_, rfl⟩
      obtain ⟨opp', hopp'⟩ : ∃ o : Opportunity,
          o = { opp with applicants := opp.applicants + 1 } := ⟨_, rfl⟩
      have hkey : Opportunity.id opp' = Opportunity.id opp := by rw [hopp']
      obtain ⟨S, hS⟩ : ∃ S : CareerState,
          S = { opportunities := putRecord Opportunity.id s.opportunities opp'
                applications := s.applications ++ [app]
                nextAppId := s.nextAppId + 1 } := ⟨_, rfl⟩
      have hSs' : S = s' := by
        rw [hS, happ, hopp']
        injection h with h1
        exact (Prod.ext_iff.mp h1).1
      subst hSs'
      constructor
      · show (S.opportunities.map Opportunity.id).Nodup
        rw [hS]
        show ((putRecord Opportunity.id s.opportunities opp').map Opportunity.id).Nodup
        rw [putRecord_of_mem hmem hkey, map_key_replace]
        exact hinv.1
      · intro o' ho'
        rw [hS] at ho'
        replace ho' : o' ∈ putRecord Opportunity.id s.opportunities opp' := ho'
        rw [putRecord_of_mem hmem hkey] at ho'
        rcases List.mem_map.mp ho' with ⟨o, ho, rfl⟩
        rw [hS]
        show (if (o.id == Opportunity.id opp') = true then opp' else o).applicants =
          ((s.applications ++ [app]).filter
            (fun a => a.opportunityId ==
              (if (o.id == Opportunity.id opp') = true then opp' else o).id)).length
        by_cases hco : (o.id == Opportunity.id opp') = true
        · simp only [if_pos hco]
          rw [List.filter_append, List.length_append]
          have h1 : (([app]).filter
              (fun a => a.opportunityId == Opportunity.id opp')).length = 1 := by
            simp [happ, hopp', hoid]
          rw [h1, hopp']
          show opp.applicants + 1 = _
          rw [hinv.2 opp hmem]
        · simp only [if_neg hco]
          rw [List.filter_append, List.length_append]
          have h0 : (([app]).filter (fun a => a.opportunityId == o.id)).length = 0 := by
            have hne : ¬ (app.opportunityId == o.id) = true := by
              rw [happ]
              show ¬ (oid == o.id) = true
              intro hcon
              apply hco
              rw [hopp']
              show (o.id == opp.id) = true
              have hx : oid = o.id := by simpa using hcon
              simp [← hx, hoid]
            simp [hne]
          rw [h0, hinv.2 o ho]
          simp

lemma applySeq_preserves_inv (reqs : List ApplyRequest) :
    ∀ s : CareerState, CounterInv s → CounterInv (applySeq s reqs) := by
  induction reqs with
  | nil => intro s hinv; exact hinv
  | cons req rest ih =>
      intro s hinv
      show CounterInv (applySeq (applyCall s req) rest)
      apply ih
      unfold applyCall
      cases happ : applyForOpportunity s req.currentUser req.opportunityId req.now with
      | ok p =>
          cases p with
          | mk s' r => exact applyForOpportunity_preserves_inv hinv happ
      | error e => exact hinv

/-- C2: applying twice for the same `(studentId, opportunityId)` fails the
second time with the duplicate-application error (given the opportunity is
still within deadline at the second call); and any sequence of
`applyForOpportunity` calls preserves the invariant that every
opportunity's `applicants` counter equals the number of stored
applications referencing it. -/
theorem applyForOpportunity_spec :
    (∀ (s : CareerState) (cu : Applicant) (oid now now₂ : Nat) (opp : Opportunity),
      s.opportunities.find? (fun o => o.id == oid) = some opp →
      deadlinePassed opp now = false →
      deadlinePassed opp now₂ = false →
      ((s.applications.filter (fun a => a.studentId == cu.id)).any
        (fun a => a.opportunityId == oid)) = false →
      ∃ s₁ app, applyForOpportunity s (some cu) oid now = .ok (s₁, app) ∧
        applyForOpportunity s₁ (some cu) oid now₂ =
          .error .duplicateApplication) ∧
    (∀ (s : CareerState) (reqs : List ApplyRequest),
      CounterInv s → CounterInv (applySeq s reqs)) := by
  constructor
  · intro s cu oid now now₂ opp hfind hdl₁ hdl₂ hdup
    have hoid : opp.id = oid := by simpa using List.find?_some hfind
    obtain ⟨app, happ⟩ : ∃ a : Application,
        a = { id := s.nextAppId, studentId := cu.id, studentName := cu.name,
              opportunityId := oid, status := "pending", appliedDate := now } :=
      ⟨_, rfl⟩
    obtain ⟨opp', hopp'⟩ : ∃ o : Opportunity,
        o = { opp with applicants := opp.applicants + 1 } := ⟨_, rfl⟩
    obtain ⟨S, hS⟩ : ∃ S : CareerState,
        S = { opportunities := putRecord Opportunity.id s.opportunities opp'
              applications := s.applications ++ [app]
              nextAppId := s.nextAppId + 1 } := ⟨_, rfl⟩
    refine ⟨S, app, ?_, ?_⟩
    · simp only [applyForOpportunity, hfind]
      rw [if_neg (by simp [hdl₁]), if_neg (by simp [hdup]), hS, happ, hopp']
    · have hfind₁ : S.opportunities.find? (fun o => o.id == oid) = some opp' := by
        rw [hS]
        exact find?_putRecord_key Opportunity.id s.opportunities opp' oid
          (by rw [hopp']; exact hoid)
      simp only [applyForOpportunity, hfind₁]
      have hdl' : deadlinePassed opp' now₂ = false := by
        rw [hopp']
        exact hdl₂
      rw [if_neg (by simp [hdl'])]
      have hany : ((S.applications.filter (fun a => a.studentId == cu.id)).any
          (fun a => a.opportunityId == oid)) = true := by
        rw [hS]
        show (((s.applications ++ [app]).filter
          (fun a => a.studentId == cu.id)).any
          (fun a => a.opportunityId == oid)) = true
        rw [List.filter_append, List.any_append, hdup]
        simp [happ]
      rw [if_pos hany]
  · intro s reqs
    exact applySeq_preserves_inv reqs s

lemma counterInv_careerW : CounterInv careerW := by
  constructor
  · simp [careerW, oppW]
  · intro opp h
    simp only [careerW, List.mem_singleton] at h
    subst h
    simp [careerW, oppW]

/-- Evaluation of `applyForOpportunity_spec` at a concrete store. -/
theorem applyForOpportunity_spec_witness :
    (∃ s₁ app, applyForOpportunity careerW (some ⟨"s1", "Stu"⟩) 1 5 = .ok (s₁, app) ∧
      applyForOpportunity s₁ (some ⟨"s1", "Stu"⟩) 1 6 =
        .error .duplicateApplication) ∧
    CounterInv (applySeq careerW [⟨some ⟨"s1", "Stu"⟩, 1, 5⟩]) :=
  ⟨applyForOpportunity_spec.1 careerW ⟨"s1", "Stu"⟩ 1 5 6 oppW rfl rfl rfl rfl,
    applyForOpportunity_spec.2 careerW [⟨some ⟨"s1", "Stu"⟩, 1, 5⟩]
      counterInv_careerW⟩

/-! ## Claim C6 — the alert expiry sweep -/

/-- The snapshot iteration of the sweep: under unique alert keys, folding
`put` over the snapshot is the pointwise deactivation of every visited
alert that is active and expired. -/
lemma sweep_foldl_char (now : Nat) :
    ∀ (l st : List Alert), (st.map Alert.id).Nodup → (l.map Alert.id).Nodup →
      (∀ a ∈ l, a ∈ st) →
      l.foldl (sweepStep now) st =
        st.map (fun b => if b ∈ l ∧ (b.isActive && alertExpired b now) = true
          then { b with isActive := false } else b) := by
  intro l
  induction l with
  | nil =>
      intro st _ _ _
      simp
  | cons a l ih =>
      intro st hstN hlN hsub
      have haSt : a ∈ st := hsub a (by simp)
      have hlN' : (l.map Alert.id).Nodup := by
        rw [List.map_cons, List.nodup_cons] at hlN
        exact hlN.2
      have haNotl : a.id ∉ l.map Alert.id := by
        rw [List.map_cons, List.nodup_cons] at hlN
        exact hlN.1
      simp only [List.foldl_cons]
      by_cases hg : (a.isActive && alertExpired a now) = true
      · have hstep : sweepStep now st a =
            st.map (fun y => if (y.id == Alert.id { a with isActive := false })
              then { a with isActive := false } else y) := by
          rw [sweepStep, if_pos hg]
          exact putRecord_of_mem haSt rfl
        rw [hstep]
        have hstN₁ : ((st.map (fun y =>
            if (y.id == Alert.id { a with isActive := false })
            then { a with isActive := false } else y)).map Alert.id).Nodup := by
          rw [map_key_replace]
          exact hstN
        have hsub₁ : ∀ c ∈ l, c ∈ st.map (fun y =>
            if (y.id == Alert.id { a with isActive := false })
            then { a with isActive := false } else y) := by
          intro c hc
          have hcst : c ∈ st := hsub c (by simp [hc])
          have hcid : ¬ (c.id == Alert.id { a with isActive := false }) = true := by
            intro he
            exact haNotl (by
              have : c.id = a.id := by simpa using he
              rw [← this]
              exact List.mem_map_of_mem Alert.id hc)
          have hfc : (fun y => if (y.id == Alert.id { a with isActive := false })
              then { a with isActive := false } else y) c = c := by
            simp [hcid]
          rw [← hfc]
          exact List.mem_map_of_mem _ hcst
        rw [ih _ hstN₁ hlN' hsub₁, List.map_map]
        apply List.map_congr_left
        intro b hb
        by_cases hba : (b.id == a.id) = true
        · have hbeq : b = a :=
            List.inj_on_of_nodup_map hstN hb haSt (by simpa using hba)
          subst hbeq
          have hnotmem : ({ b with isActive := false } : Alert) ∉ l := by
            intro hmem
            have hin : Alert.id { b with isActive := false } ∈ l.map Alert.id :=
              List.mem_map_of_mem Alert.id hmem
            exact haNotl hin
          simp [Function.comp, hnotmem, hg]
        · have hbna : b ≠ a := by
            intro he
            rw [he] at hba
            simp at hba
          by_cases hbl : b ∈ l
          · simp [Function.comp, hba, List.mem_cons, hbna, hbl]
          · simp [Function.comp, hba, List.mem_cons, hbna, hbl]
      · have hstep : sweepStep now st a = st := by
          rw [sweepStep, if_neg hg]
        rw [hstep, ih st hstN hlN' (fun c hc => hsub c (by simp [hc]))]
        apply List.map_congr_left
        intro b hb
        by_cases hba : b = a
        · subst hba
          simp [hg]
        · by_cases hbl : b ∈ l
          · simp [List.mem_cons, hba, hbl]
          · simp [List.mem_cons, hba, hbl]

/-- Under unique keys, one sweep run is the pointwise deactivation of
every active, expired alert. -/
lemma performBackgroundSync_char (store : List Alert) (now : Nat)
    (h : (store.map Alert.id).Nodup) :
    performBackgroundSync store now =
      store.map (fun b => if (b.isActive && alertExpired b now) = true
        then { b with isActive := false } else b) := by
  unfold performBackgroundSync
  rw [sweep_foldl_char now store store h h (fun a ha => ha)]
  apply List.map_congr_left
  intro b hb
  simp [hb]

/-- C6: one run of the expiry sweep sets `isActive := false` on every
stored alert that is active with an elapsed expiry, keeps every other
alert exactly as it was, deletes nothing (the key column is unchanged),
and is idempotent — a second run immediately after changes nothing. -/
theorem performBackgroundSync_spec (store : List Alert) (now : Nat)
    (hnodup : (store.map Alert.id).Nodup) :
    (∀ a ∈ store, a.isActive = true → alertExpired a now = true →
      { a with isActive := false } ∈ performBackgroundSync store now) ∧
    (∀ a ∈ store, ¬(a.isActive = true ∧ alertExpired a now = true) →
      a ∈ performBackgroundSync store now) ∧
    (performBackgroundSync store now).map Alert.id = store.map Alert.id ∧
    performBackgroundSync (performBackgroundSync store now) now =
      performBackgroundSync store now := by
  have hchar := performBackgroundSync_char store now hnodup
  have hids : (performBackgroundSync store now).map Alert.id =
      store.map Alert.id := by
    rw [hchar, List.map_map]
    apply List.map_congr_left
    intro b _
    by_cases hg : (b.isActive && alertExpired b now) = true <;>
      simp [Function.comp, hg]
  refine ⟨?_, ?_, hids, ?_⟩
  · intro a ha hact hexp
    rw [hchar]
    have he : ({ a with isActive := false } : Alert) =
        (fun b => if (b.isActive && alertExpired b now) = true
          then { b with isActive := false } else b) a := by
      simp [hact, hexp]
    rw [he]
    exact List.mem_map_of_mem _ ha
  · intro a ha hn
    rw [hchar]
    have hg : ¬ (a.isActive && alertExpired a now) = true := by
      intro hcon
      rw [Bool.and_eq_true] at hcon
      exact hn ⟨hcon.1, hcon.2⟩
    have he : a = (fun b => if (b.isActive && alertExpired b now) = true
        then { b with isActive := false } else b) a := by
      simp [hg]
    rw [he]
    exact List.mem_map_of_mem _ ha
  · have hnodup' : ((performBackgroundSync store now).map Alert.id).Nodup := by
      rw [hids]
      exact hnodup
    rw [performBackgroundSync_char _ now hnodup']
    have hfix : ∀ b ∈ performBackgroundSync store now,
        (if (b.isActive && alertExpired b now) = true
          then { b with isActive := false } else b) = b := by
      intro b hb
      rw [hchar] at hb
      rcases List.mem_map.mp hb with ⟨c, _, rfl⟩
      by_cases hg : (c.isActive && alertExpired c now) = true
      · simp [hg]
      · simp [hg]
    rw [List.map_congr_left hfix]
    simp

/-- Evaluation of `performBackgroundSync_spec` on a concrete store at
time 10 (the first alert is expired, the second is not). -/
theorem performBackgroundSync_spec_witness :
    (∀ a ∈ alertsW, a.isActive = true → alertExpired a 10 = true →
      { a with isActive := false } ∈ performBackgroundSync alertsW 10) ∧
    (∀ a ∈ alertsW, ¬(a.isActive = true ∧ alertExpired a 10 = true) →
      a ∈ performBackgroundSync alertsW 10) ∧
    (performBackgroundSync alertsW 10).map Alert.id = alertsW.map Alert.id ∧
    performBackgroundSync (performBackgroundSync alertsW 10) 10 =
      performBackgroundSync alertsW 10 :=
  performBackgroundSync_spec alertsW 10 (by decide)

/-! ## Claim C5 — active-alert filtering and ordering -/

lemma alertActiveFilter_iff (a : Alert) (now : Nat) :
    alertActiveFilter a now = true ↔
      (a.isActive = true ∧ ∀ e, a.expiry = some e → now ≤ e) := by
  unfold alertActiveFilter alertExpired
  cases he : a.expiry with
  | none => cases a.isActive <;> simp
  | some e => cases a.isActive <;> simp [Nat.not_lt]

lemma alertLe_trans : ∀ a b c : Alert, alertLe a b = true → alertLe b c = true →
    alertLe a c = true := by
  intro a b c hab hbc
  unfold alertLe at *
  rcases Bool.or_eq_true_iff.mp hab with h1 | h1 <;>
    rcases Bool.or_eq_true_iff.mp hbc with h2 | h2
  · simp only [decide_eq_true_eq] at h1 h2
    simp [Nat.lt_trans h2 h1]
  · rw [Bool.and_eq_true] at h2
    have h2a : priorityOrder c.priority = priorityOrder b.priority := by
      simpa using h2.1
    simp only [decide_eq_true_eq] at h1
    apply Bool.or_eq_true_iff.mpr
    left
    simp [h2a, h1]
  · rw [Bool.and_eq_true] at h1
    have h1a : priorityOrder b.priority = priorityOrder a.priority := by
      simpa using h1.1
    simp only [decide_eq_true_eq] at h2
    apply Bool.or_eq_true_iff.mpr
    left
    simp [← h1a, h2]
  · rw [Bool.and_eq_true] at h1 h2
    have h1a : priorityOrder b.priority = priorityOrder a.priority := by
      simpa using h1.1
    have h2a : priorityOrder c.priority = priorityOrder b.priority := by
      simpa using h2.1
    have h1b : b.createdAt ≤ a.createdAt := by simpa using h1.2
    have h2b : c.createdAt ≤ b.createdAt := by simpa using h2.2
    apply Bool.or_eq_true_iff.mpr
    right
    rw [Bool.and_eq_true]
    constructor
    · simp [h2a, h1a]
    · simp [Nat.le_trans h2b h1b]

lemma alertLe_total : ∀ a b : Alert, (alertLe a b || alertLe b a) = true := by
  intro a b
  unfold alertLe
  rcases Nat.lt_trichotomy (priorityOrder a.priority) (priorityOrder b.priority)
    with h | h | h
  · simp [h]
  · rcases Nat.le_total a.createdAt b.createdAt with hc | hc <;> simp [h, hc]
  · simp [h]

/-- C5 (counterexample to the claim as stated): at `now = 5` the alert
with `expiry = 5` is returned by `getActiveAlerts` — the code only drops
alerts with `expiry < now` — although its expiry is not strictly in the
future, which the claim requires. -/
theorem getActiveAlerts_boundary_counterexample :
    getActiveAlerts [alertC5] 5 none = [alertC5] ∧ ¬ activeAsClaimed alertC5 5 := by
  constructor
  · simp [getActiveAlerts, alertC5, alertActiveFilter, alertExpired]
  · decide

/-- C5 (amended): `getActive(priority?)` returns exactly the stored alerts
that are active and whose expiry has not passed (`expiry ≥ now`; alerts
without an expiry are always kept), restricted to the given priority when
one is supplied, ordered by priority (high before medium before low, via
the rank table high = 3, medium = 2, low = 1, others 0) and, within equal
rank, by `createdAt` descending. -/
theorem getActiveAlerts_spec :
    (∀ (store : List Alert) (now : Nat) (priority : Option String) (a : Alert),
      a ∈ getActiveAlerts store now priority ↔
        (a ∈ store ∧ a.isActive = true ∧ (∀ e, a.expiry = some e → now ≤ e) ∧
          (priority = none ∨ priority = some a.priority))) ∧
    (∀ (store : List Alert) (now : Nat) (priority : Option String),
      (getActiveAlerts store now priority).Pairwise (fun a b =>
        priorityOrder b.priority < priorityOrder a.priority ∨
          (priorityOrder b.priority = priorityOrder a.priority ∧
            b.createdAt ≤ a.createdAt))) := by
  constructor
  · intro store now priority a
    unfold getActiveAlerts
    rw [List.Perm.mem_iff (List.mergeSort_perm _ _)]
    cases priority with
    | none =>
        rw [List.mem_filter, alertActiveFilter_iff]
        constructor
        · rintro ⟨h1, h2, h3⟩
          exact ⟨h1, h2, h3, Or.inl rfl⟩
        · rintro ⟨h1, h2, h3, _⟩
          exact ⟨h1, h2, h3⟩
    | some p =>
        rw [List.mem_filter, List.mem_filter, alertActiveFilter_iff]
        constructor
        · rintro ⟨⟨h1, h2, h3⟩, h4⟩
          refine ⟨h1, h2, h3, Or.inr ?_⟩
          have : a.priority = p := by simpa using h4
          rw [this]
        · rintro ⟨h1, h2, h3, h4⟩
          rcases h4 with h4 | h4
          · exact absurd h4 (by simp)
          · have : p = a.priority := Option.some.inj h4
            exact ⟨⟨h1, h2, h3⟩, by simp [this]⟩
  · intro store now priority
    unfold getActiveAlerts
    have hsorted := List.sorted_mergeSort alertLe_trans alertLe_total
      (match priority with
        | some p => (store.filter (fun a => alertActiveFilter a now)).filter
            (fun a => a.priority == p)
        | none => store.filter (fun a => alertActiveFilter a now))
    apply List.Pairwise.imp ?_ hsorted
    intro a b hab
    unfold alertLe at hab
    rcases Bool.or_eq_true_iff.mp hab with h | h
    · left
      simpa using h
    · right
      rw [Bool.and_eq_true] at h
      exact ⟨by simpa using h.1, by simpa using h.2⟩

/-- Evaluation of `getActiveAlerts_spec` at a concrete store. -/
theorem getActiveAlerts_spec_witness :
    (alertC5 ∈ getActiveAlerts [alertC5] 5 none ↔
      (alertC5 ∈ [alertC5] ∧ alertC5.isActive = true ∧
        (∀ e, alertC5.expiry = some e → 5 ≤ e) ∧
        ((none : Option String) = none ∨ some alertC5.priority = some alertC5.priority))) ∧
    (getActiveAlerts alertsW 10 none).Pairwise (fun a b =>
      priorityOrder b.priority < priorityOrder a.priority ∨
        (priorityOrder b.priority = priorityOrder a.priority ∧
          b.createdAt ≤ a.createdAt)) :=
  ⟨(getActiveAlerts_spec.1 [alertC5] 5 none alertC5).trans (by simp),
    getActiveAlerts_spec.2 alertsW 10 none⟩

/-! ## Claim C1 — register then login -/

/-- C1 (counterexample to the claim as stated): the claim quantifies over
every candidate with non-empty username, password, email and role, but for
a password holding a code point above 255 — here U+20AC — the source's
`btoa` throws `InvalidCharacterError` inside `hashPassword`, so
registration fails instead of succeeding. -/
theorem register_nonlatin1_counterexample :
    dataC1.username ≠ "" ∧ dataC1.password ≠ "" ∧ dataC1.email ≠ "" ∧
    dataC1.role ≠ "" ∧ getUserByUsername [] dataC1.username = none ∧
    getUserByEmail [] dataC1.email = none ∧
    registerUser [] dataC1 "user_1" 0 = .error .invalidCharacter := by
  refine ⟨by decide, by decide, by decide, by decide, rfl, rfl, ?_⟩
  rfl

/-- C1 (amended): for every candidate with non-empty username, password,
email and role, whose username and email are not yet present, and whose
password `btoa` accepts (`hashPassword` succeeds — every code point of the
password is at most 255; the source throws `InvalidCharacterError`
otherwise), registering the candidate and then calling login with the
same username and password succeeds, and the register result and the
login result are each the stored user record (as stored at that moment —
login stamps `lastLogin`) with the password field stripped. -/
theorem register_then_login
    (store : List User) (data : RegisterData) (newId hashed : String)
    (now now₂ : Nat)
    (hu : data.username ≠ "") (hp : data.password ≠ "") (he : data.email ≠ "")
    (hr : data.role ≠ "")
    (hhash : hashPassword data.password = some hashed)
    (hfu : getUserByUsername store data.username = none)
    (hfe : getUserByEmail store data.email = none) :
    ∃ (u : User) (s₁ s₂ : List User),
      registerUser store data newId now = .ok (s₁, stripPassword u) ∧
      getUserByUsername s₁ data.username = some u ∧
      u.password = hashed ∧
      login s₁ data.username data.password now₂ =
        .ok (s₂, stripPassword { u with lastLogin := some now₂ }) ∧
      getUserByUsername s₂ data.username =
        some { u with lastLogin := some now₂ } := by
  obtain ⟨u, hu'⟩ : ∃ u : User,
      u = { id := newId, username := data.username,
            password := hashed, email := data.email,
            name := if data.name = "" then data.username else data.name,
            role := data.role, department := data.department, createdAt := now,
            lastLogin := none, isActive := true } := ⟨_, rfl⟩
  have hpu : (u.username == data.username) = true := by simp [hu']
  have hfind₁ : getUserByUsername (putUser store u) data.username = some u :=
    find?_putRecord_new hfu hpu
  have hfindid : (putUser store u).find? (fun y => y.id == u.id) = some u :=
    find?_putRecord_self User.id store u
  have hfind₂ : getUserByUsername
      (putUser (putUser store u) { u with lastLogin := some now₂ })
      data.username = some { u with lastLogin := some now₂ } :=
    find?_putRecord_agree hfind₁ hfindid hpu
  refine ⟨u, putUser store u,
    putUser (putUser store u) { u with lastLogin := some now₂ },
    ?_, hfind₁, ?_, ?_, hfind₂⟩
  · simp only [registerUser, hfu, hfe, hhash]
    rw [if_neg (by simp [hu, hp, he, hr]), hu']
  · simp [hu']
  · simp only [login, hfind₁, hhash]
    rw [if_neg (show ¬((!u.isActive) = true) by simp [hu']),
      if_neg (show ¬(u.password ≠ hashed) by simp [hu'])]

/-- Evaluation of `register_then_login` on the empty store. -/
theorem register_then_login_witness :
    ∃ (u : User) (s₁ s₂ : List User),
      registerUser [] ⟨"alice", "pw", "a@x.y", "Alice", "student", "CSE"⟩
          "user_1" 3 = .ok (s₁, stripPassword u) ∧
      getUserByUsername s₁ "alice" = some u ∧
      u.password = (hashPassword "pw").getD "" ∧
      login s₁ "alice" "pw" 9 =
        .ok (s₂, stripPassword { u with lastLogin := some 9 }) ∧
      getUserByUsername s₂ "alice" = some { u with lastLogin := some 9 } :=
  register_then_login [] ⟨"alice", "pw", "a@x.y", "Alice", "student", "CSE"⟩
    "user_1" ((hashPassword "pw").getD "") 3 9 (by decide) (by decide)
    (by decide) (by decide) rfl rfl rfl

/-! ## Claim C10 — change password then login -/

/-- C10 (counterexample to the claim as stated): the claim quantifies over
every stored user, but `changePassword` performs no `isActive` check, so
for a deactivated user it succeeds while the subsequent login with the new
password fails with the deactivated-account error rather than succeeding —
and the login with the old password fails with the same error, not the
invalid-password one. -/
theorem changePassword_deactivated_counterexample :
    (changePassword [userC10d] "u1" "old" "new").map (fun r => r.2) =
      .ok true ∧
    (changePassword [userC10d] "u1" "old" "new").map
      (fun r => login r.1 userC10d.username "new" 7) =
        .ok (.error .deactivated) ∧
    (changePassword [userC10d] "u1" "old" "new").map
      (fun r => login r.1 userC10d.username "old" 7) =
        .ok (.error .deactivated) := by
  refine ⟨rfl, rfl, rfl⟩

/-- C10 (amended): for every stored user that is active, after a successful
`changePassword(userId, oldPassword, newPassword)` — the old password
matching the stored credential and both passwords accepted by `btoa` — a
subsequent login with that user's username and the new password succeeds,
and a login with the former old password (distinct from the new one) fails
with the invalid-password error. -/
theorem changePassword_then_login
    (store : List User) (userId oldPassword newPassword hOld hNew : String)
    (now : Nat) (u : User)
    (hid : getUserById store userId = some u)
    (hname : getUserByUsername store u.username = some u)
    (hhOld : hashPassword oldPassword = some hOld)
    (hhNew : hashPassword newPassword = some hNew)
    (hpw : u.password = hOld)
    (hact : u.isActive = true)
    (hne : oldPassword ≠ newPassword) :
    ∃ s', changePassword store userId oldPassword newPassword = .ok (s', true) ∧
      (∃ s₂, login s' u.username newPassword now =
        .ok (s₂, stripPassword { u with password := hNew,
                                        lastLogin := some now })) ∧
      login s' u.username oldPassword now = .error .invalidPassword := by
  obtain ⟨u', hu'⟩ : ∃ x : User, x = { u with password := hNew } := ⟨_, rfl⟩
  have huid : u.id = userId := by simpa using List.find?_some hid
  have hidu : store.find? (fun y => y.id == u'.id) = some u := by
    have hthis : store.find? (fun y => y.id == userId) = some u := hid
    rw [← huid] at hthis
    rw [hu']
    exact hthis
  have hfind' : (putUser store u').find?
      (fun y => y.username == u.username) = some u' :=
    find?_putRecord_agree hname hidu (by simp [hu'])
  have hhash : hNew ≠ hOld := by
    intro hcon
    rw [hcon] at hhNew
    exact hne (hashPassword_injOn hhOld hhNew)
  refine ⟨putUser store u', ?_,
    ⟨putUser (putUser store u') { u' with lastLogin := some now }, ?_⟩, ?_⟩
  · simp only [changePassword, hid, hhOld, hhNew]
    rw [if_neg (by simp [hpw]), hu']
  · simp only [login, getUserByUsername, hfind', hhNew]
    rw [if_neg (show ¬((!u'.isActive) = true) by simp [hu', hact]),
      if_neg (show ¬(u'.password ≠ hNew) by simp [hu'])]
    rw [hu']
  · simp only [login, getUserByUsername, hfind', hhOld]
    rw [if_neg (show ¬((!u'.isActive) = true) by simp [hu', hact]),
      if_pos (show u'.password ≠ hOld by simp [hu', hhash])]

/-- Evaluation of `changePassword_then_login` at a concrete store. -/
theorem changePassword_then_login_witness :
    ∃ s', changePassword [userC10] "u1" "old" "new" = .ok (s', true) ∧
      (∃ s₂, login s' userC10.username "new" 7 =
        .ok (s₂, stripPassword { userC10 with
          password := (hashPassword "new").getD "",
          lastLogin := some 7 })) ∧
      login s' userC10.username "old" 7 = .error .invalidPassword :=
  changePassword_then_login [userC10] "u1" "old" "new"
    ((hashPassword "old").getD "") ((hashPassword "new").getD "") 7 userC10
    rfl rfl rfl rfl rfl rfl (by decide)
